import Mathlib

/-!
Verification of the iq/iq_af acquisition pipeline.

The definitions below are shallow embeddings of the Python source:
* the skip policy and the pyaudio callback pa_callback_iqin (iq_af.py, lines 41-94),
* the bounded queue cbqueue of capacity MAXQUEUELEN = 32 (iq_af.py, lines 52-53),
* the consumer wait loop DataInput.get_queued_data (iq_af.py, lines 189-200),
* Graticule.make and Graticule.set_range (iq.py, lines 1068-1118),
* the module-level FFT size clamp (iq.py, lines 1223-1228).

Machine integers of the source are modelled as Nat / Int (no overflow is
possible in the relevant Python code, whose ints are unbounded anyway), the
pyaudio buffer payload is an abstract type, and process termination via
sys.exit or quit_all is modelled as an explicit outcome.
-/

/-! ### Skip policy (iq_af.py, lines 66-80)

The source comment says: skip = N means discard every (N+1)th buffer for
N > 0, or use only every (-N+1)th buffer for N < 0; skip = 0 takes all data.
The rolling counter cbskip_ct starts at 0 at module load.

skipDecide returns the pair (keep this buffer?, new value of cbskip_ct),
translating lines 68-80 of iq_af.py verbatim.  -/

def skipDecide (cbskip : Int) (ct : Nat) : Bool × Nat :=
  if 0 < cbskip then
    if cbskip ≤ (ct : Int) then (false, 0) else (true, ct + 1)
  else if cbskip < 0 then
    if -cbskip ≤ (ct : Int) then (true, 0) else (false, ct + 1)
  else (true, ct)

/-- skipRun cbskip ct m feeds m successive buffers through the skip decision,
starting with counter value ct; it returns (number of buffers kept,
final counter value). -/
def skipRun (cbskip : Int) : Nat → Nat → Nat × Nat
  | ct, 0 => (0, ct)
  | ct, m + 1 =>
    let p := skipDecide cbskip ct
    let r := skipRun cbskip p.2 m
    ((if p.1 then 1 else 0) + r.1, r.2)

/-- keptCount cbskip ct m is the number of buffers the skip policy keeps out
of m consecutive buffers, starting at counter value ct. -/
def keptCount (cbskip : Int) (ct m : Nat) : Nat :=
  (skipRun cbskip ct m).1

theorem skipDecide_pos_keep (N : Int) (ct : Nat) (hN : 0 < N)
    (h : (ct : Int) < N) : skipDecide N ct = (true, ct + 1) := by
  unfold skipDecide
  rw [if_pos hN, if_neg (by omega)]

theorem skipDecide_pos_discard (N : Int) (ct : Nat) (hN : 0 < N)
    (h : N ≤ (ct : Int)) : skipDecide N ct = (false, 0) := by
  unfold skipDecide
  rw [if_pos hN, if_pos (by omega)]

theorem skipDecide_neg_keep (N : Int) (ct : Nat) (hN : N < 0)
    (h : -N ≤ (ct : Int)) : skipDecide N ct = (true, 0) := by
  unfold skipDecide
  rw [if_neg (by omega), if_pos hN, if_pos (by omega)]

theorem skipDecide_neg_discard (N : Int) (ct : Nat) (hN : N < 0)
    (h : (ct : Int) < -N) : skipDecide N ct = (false, ct + 1) := by
  unfold skipDecide
  rw [if_neg (by omega), if_pos hN, if_neg (by omega)]

theorem skipDecide_zero (ct : Nat) : skipDecide 0 ct = (true, ct) := by
  unfold skipDecide
  rw [if_neg (by omega), if_neg (by omega)]

theorem skipRun_succ (s : Int) (ct m : Nat) :
    skipRun s ct (m + 1) =
      ((if (skipDecide s ct).1 then 1 else 0) +
        (skipRun s (skipDecide s ct).2 m).1,
       (skipRun s (skipDecide s ct).2 m).2) := rfl

/-- Running a + b buffers is running a buffers, then b buffers from the
resulting counter; kept counts add. -/
theorem skipRun_add (s : Int) :
    ∀ (a b ct : Nat),
      skipRun s ct (a + b) =
        ((skipRun s ct a).1 + (skipRun s (skipRun s ct a).2 b).1,
         (skipRun s (skipRun s ct a).2 b).2) := by
  intro a
  induction a with
  | zero => intro b ct; simp [skipRun]
  | succ a ih =>
    intro b ct
    rw [Nat.succ_add, skipRun_succ, skipRun_succ, ih]
    simp [Nat.add_assoc]

/-- For a positive skip value, while the counter stays below N every buffer
is kept and the counter climbs. -/
theorem skipRun_pos_ramp (N : Int) (hN : 0 < N) :
    ∀ (r c : Nat), c + r ≤ N.toNat → skipRun N c r = (r, c + r) := by
  intro r
  induction r with
  | zero => intro c _; simp [skipRun]
  | succ r ih =>
    intro c hc
    rw [skipRun_succ, skipDecide_pos_keep N c hN (by omega)]
    rw [ih (c + 1) (by omega)]
    simp
    omega

/-- For a negative skip value, while the counter stays below -N every buffer
is discarded and the counter climbs. -/
theorem skipRun_neg_ramp (N : Int) (hN : N < 0) :
    ∀ (r c : Nat), c + r ≤ (-N).toNat → skipRun N c r = (0, c + r) := by
  intro r
  induction r with
  | zero => intro c _; simp [skipRun]
  | succ r ih =>
    intro c hc
    rw [skipRun_succ, skipDecide_neg_discard N c hN (by omega)]
    rw [ih (c + 1) (by omega)]
    simp
    omega

/-- Positive skip N: one full period of N+1 buffers starting at counter 0
keeps N buffers and returns the counter to 0. -/
theorem skipRun_pos_period (N : Int) (hN : 0 < N) (m : Nat) :
    skipRun N 0 ((N.toNat + 1) + m) =
      (N.toNat + (skipRun N 0 m).1, (skipRun N 0 m).2) := by
  have h1 : skipRun N 0 N.toNat = (N.toNat, N.toNat) := by
    have := skipRun_pos_ramp N hN N.toNat 0 (by omega)
    simpa using this
  have hstep : skipRun N N.toNat (m + 1) = skipRun N 0 m := by
    rw [skipRun_succ, skipDecide_pos_discard N N.toNat hN (by omega)]
    simp
  have h2 : N.toNat + 1 + m = N.toNat + (m + 1) := by omega
  rw [h2, skipRun_add, h1]
  simp [hstep]

/-- Negative skip N: one full period of -N+1 buffers starting at counter 0
keeps exactly 1 buffer and returns the counter to 0. -/
theorem skipRun_neg_period (N : Int) (hN : N < 0) (m : Nat) :
    skipRun N 0 (((-N).toNat + 1) + m) =
      (1 + (skipRun N 0 m).1, (skipRun N 0 m).2) := by
  have h1 : skipRun N 0 (-N).toNat = (0, (-N).toNat) := by
    have := skipRun_neg_ramp N hN (-N).toNat 0 (by omega)
    simpa using this
  have hstep : skipRun N (-N).toNat (m + 1) =
      (1 + (skipRun N 0 m).1, (skipRun N 0 m).2) := by
    rw [skipRun_succ, skipDecide_neg_keep N (-N).toNat hN (by omega)]
    simp
  have h2 : (-N).toNat + 1 + m = (-N).toNat + (m + 1) := by omega
  rw [h2, skipRun_add, h1]
  simp [hstep]

/-- Skip value 0 keeps every buffer and never moves the counter. -/
theorem skipRun_zero_skip : ∀ (m c : Nat), skipRun 0 c m = (m, c) := by
  intro m
  induction m with
  | zero => intro c; simp [skipRun]
  | succ m ih =>
    intro c
    rw [skipRun_succ, skipDecide_zero, ih]
    simp
    omega

/-- Positive skip N: out of M consecutive buffers starting at counter 0,
exactly M - M / (N+1) are kept (one of every N+1 is discarded). -/
theorem keptCount_pos (N : Int) (hN : 0 < N) :
    ∀ M : Nat, keptCount N 0 M = M - M / (N.toNat + 1) := by
  intro M
  induction M using Nat.strong_induction_on with
  | _ M ih =>
    by_cases hM : M ≤ N.toNat
    · have h1 : skipRun N 0 M = (M, M) := by
        simpa using skipRun_pos_ramp N hN M 0 (by omega)
      unfold keptCount
      rw [h1, Nat.div_eq_of_lt (by omega)]
      omega
    · have hM2 : M = (N.toNat + 1) + (M - (N.toNat + 1)) := by omega
      set m := M - (N.toNat + 1) with hm
      have hlt : m < M := by omega
      unfold keptCount at ih ⊢
      rw [hM2, skipRun_pos_period N hN m, ih m hlt]
      have hdiv : (N.toNat + 1 + m) / (N.toNat + 1) = m / (N.toNat + 1) + 1 := by
        rw [Nat.add_comm (N.toNat + 1) m, Nat.add_div_right _ (by omega)]
      rw [hdiv]
      have hq : m / (N.toNat + 1) ≤ m := Nat.div_le_self _ _
      omega

/-- Negative skip N: out of M consecutive buffers starting at counter 0,
exactly M / (-N+1) are kept (only every (-N+1)th buffer is used). -/
theorem keptCount_neg (N : Int) (hN : N < 0) :
    ∀ M : Nat, keptCount N 0 M = M / ((-N).toNat + 1) := by
  intro M
  induction M using Nat.strong_induction_on with
  | _ M ih =>
    by_cases hM : M ≤ (-N).toNat
    · have h1 : skipRun N 0 M = (0, M) := by
        simpa using skipRun_neg_ramp N hN M 0 (by omega)
      unfold keptCount
      rw [h1, Nat.div_eq_of_lt (by omega)]
    · have hM2 : M = ((-N).toNat + 1) + (M - ((-N).toNat + 1)) := by omega
      set m := M - ((-N).toNat + 1) with hm
      have hlt : m < M := by omega
      unfold keptCount at ih ⊢
      rw [hM2, skipRun_neg_period N hN m, ih m hlt]
      have hdiv : ((-N).toNat + 1 + m) / ((-N).toNat + 1)
          = m / ((-N).toNat + 1) + 1 := by
        rw [Nat.add_comm ((-N).toNat + 1) m, Nat.add_div_right _ (by omega)]
      omega

/-- Positive skip N: any window of (N+1)*k consecutive buffers starting at
any reachable counter phase c ≤ N keeps exactly N*k buffers, i.e. N out of
every N+1 consecutive, and the phase recurs. -/
theorem skipRun_pos_window (N : Int) (hN : 0 < N) (c : Nat)
    (hc : c ≤ N.toNat) : ∀ k : Nat, skipRun N c ((N.toNat + 1) * k) = (N.toNat * k, c) := by
  have hstep : skipRun N N.toNat (c + 1) = (c, c) := by
    rw [skipRun_succ, skipDecide_pos_discard N N.toNat hN (by omega)]
    have := skipRun_pos_ramp N hN c 0 (by omega)
    simp only [Nat.zero_add] at this
    rw [this]
    simp
  have hone : skipRun N c (N.toNat + 1) = (N.toNat, c) := by
    have hsplit : N.toNat + 1 = (N.toNat - c) + (c + 1) := by omega
    rw [hsplit, skipRun_add]
    rw [skipRun_pos_ramp N hN (N.toNat - c) c (by omega)]
    have hct : c + (N.toNat - c) = N.toNat := by omega
    rw [hct]
    simp [hstep]
    omega
  intro k
  induction k with
  | zero => simp [skipRun]
  | succ k ih =>
    have hsplit : (N.toNat + 1) * (k + 1) = (N.toNat + 1) + (N.toNat + 1) * k := by ring
    rw [hsplit, skipRun_add, hone]
    simp [ih]
    ring

/-- Negative skip N: any window of (-N+1)*k consecutive buffers starting at
any reachable counter phase c ≤ -N keeps exactly k buffers, i.e. 1 out of
every -N+1 consecutive, and the phase recurs. -/
theorem skipRun_neg_window (N : Int) (hN : N < 0) (c : Nat)
    (hc : c ≤ (-N).toNat) : ∀ k : Nat, skipRun N c (((-N).toNat + 1) * k) = (k, c) := by
  have hstep : skipRun N (-N).toNat (c + 1) = (1, c) := by
    rw [skipRun_succ, skipDecide_neg_keep N ((-N).toNat) hN (by omega)]
    have := skipRun_neg_ramp N hN c 0 (by omega)
    simp only [Nat.zero_add] at this
    rw [this]
    simp
  have hone : skipRun N c ((-N).toNat + 1) = (1, c) := by
    have hsplit : (-N).toNat + 1 = ((-N).toNat - c) + (c + 1) := by omega
    rw [hsplit, skipRun_add]
    rw [skipRun_neg_ramp N hN ((-N).toNat - c) c (by omega)]
    have hct : c + ((-N).toNat - c) = (-N).toNat := by omega
    rw [hct]
    simp [hstep]
  intro k
  induction k with
  | zero => simp [skipRun]
  | succ k ih =>
    have hsplit : ((-N).toNat + 1) * (k + 1) = ((-N).toNat + 1) + ((-N).toNat + 1) * k := by
      ring
    rw [hsplit, skipRun_add, hone]
    simp [ih]
    omega

/-- C1 (amended): over every window of (|N|+1)*k consecutive buffers, from
any reachable counter phase, the skip policy keeps exactly N out of every
N+1 consecutive blocks when N > 0 (it discards 1 of every N+1, not keeps 1),
exactly 1 out of every -N+1 when N < 0, and every block when N = 0. -/
theorem skip_policy_window (N : Int) (c k : Nat) :
    (0 < N → c ≤ N.toNat → skipRun N c ((N.toNat + 1) * k) = (N.toNat * k, c)) ∧
    (N < 0 → c ≤ (-N).toNat → skipRun N c (((-N).toNat + 1) * k) = (k, c)) ∧
    (N = 0 → ∀ M : Nat, skipRun N c M = (M, c)) := by
  refine ⟨fun hN hc => skipRun_pos_window N hN c hc k,
          fun hN hc => skipRun_neg_window N hN c hc k,
          fun hN M => ?_⟩
  subst hN
  exact skipRun_zero_skip M c

/-- Witness for C1 (amended): skip = 2 keeps 4 of the first 6 buffers
(2 of every 3), skip = -2 keeps 2 of the first 6, skip = 0 keeps all. -/
theorem skip_policy_window_witness :
    skipRun 2 0 6 = (4, 0) ∧ skipRun (-2) 0 6 = (2, 0) ∧ skipRun 0 5 7 = (7, 5) :=
  ⟨(skip_policy_window 2 0 2).1 (by decide) (by decide),
   (skip_policy_window (-2) 0 2).2.1 (by decide) (by decide),
   (skip_policy_window 0 5 0).2.2 rfl 7⟩

/-- Counterexample to C1 as stated: with skip N = 2 the policy keeps 2 of the
first 3 consecutive buffers (counter starting at its initial value 0), not
1 of every 3 as claimed for N > 0. -/
theorem skip_policy_c1_counterexample :
    (skipRun 2 0 3).1 = 2 ∧ (2 : Nat) ≠ 1 := by decide

/-- C5 (amended): pushing M blocks from the initial counter keeps exactly
M - M/(N+1) blocks when N > 0, exactly M/(-N+1) blocks when N < 0 (not
M - M/(-N+1)), and all M blocks when N = 0; the boundary cases N = 1 and
N = -1 keep every other block (M - M/2 and M/2 respectively), not all. -/
theorem skip_policy_kept_count (N : Int) (M : Nat) :
    (0 < N → keptCount N 0 M = M - M / (N.toNat + 1)) ∧
    (N < 0 → keptCount N 0 M = M / ((-N).toNat + 1)) ∧
    (N = 0 → keptCount N 0 M = M) ∧
    keptCount 1 0 M = M - M / 2 ∧
    keptCount (-1) 0 M = M / 2 := by
  refine ⟨fun hN => keptCount_pos N hN M,
          fun hN => keptCount_neg N hN M,
          fun hN => ?_, ?_, ?_⟩
  · subst hN
    unfold keptCount
    rw [skipRun_zero_skip M 0]
  · have := keptCount_pos 1 (by omega) M
    simpa using this
  · have := keptCount_neg (-1) (by omega) M
    simpa using this

/-- Witness for C5 (amended): with 5 blocks, skip = 2 keeps 4, skip = -2
keeps 1, skip = 0 keeps 5, skip = 1 keeps 3, skip = -1 keeps 2. -/
theorem skip_policy_kept_count_witness :
    keptCount 2 0 5 = 4 ∧ keptCount (-2) 0 5 = 1 ∧ keptCount 0 0 5 = 5 ∧
    keptCount 1 0 5 = 3 ∧ keptCount (-1) 0 5 = 2 :=
  ⟨(skip_policy_kept_count 2 5).1 (by decide),
   (skip_policy_kept_count (-2) 5).2.1 (by decide),
   (skip_policy_kept_count 0 5).2.2.1 rfl,
   (skip_policy_kept_count 1 5).2.2.2.1,
   (skip_policy_kept_count (-1) 5).2.2.2.2⟩

/-- Counterexample to C5 as stated: with skip N = -2 and M = 3 blocks the
code keeps 1 block, but M - M/(|N|+1) = 2; moreover N = 1 does not behave
as keep-all: with M = 2 blocks it keeps only 1. -/
theorem skip_policy_c5_counterexample :
    keptCount (-2) 0 3 = 1 ∧ 3 - 3 / (2 + 1) = 2 ∧ (1 : Nat) ≠ 2 ∧
    keptCount 1 0 2 = 1 := by decide

/-! ### The pyaudio callback and the bounded queue (iq_af.py, lines 48-94)

Module globals: cbcount = 0, cbskip_ct = 0, cbfirst = 1 (number of startup
buffers to toss), led_underrun_ct = 0, and cbqueue = queue.Queue(MAXQUEUELEN)
with MAXQUEUELEN = 32.  The callback body is translated step by step:
increment cbcount, set the LED flag on a paInputOverflow status, run the
skip decision (lines 66-80), toss startup buffers while cbfirst > 0
(lines 83-85), then put_nowait on the queue; queue.Full triggers sys.exit
(lines 86-93), modelled by the exited flag, which freezes the state.  -/

def MAXQUEUELEN : Nat := 32

structure CBState (α : Type) where
  cbcount : Nat
  cbskip_ct : Nat
  cbfirst : Nat
  queue : List α
  led_underrun_ct : Nat
  exited : Bool
  deriving Repr, DecidableEq

/-- The module-level initial state of iq_af.py (lines 50-56). -/
def cbInit (α : Type) : CBState α :=
  { cbcount := 0, cbskip_ct := 0, cbfirst := 1, queue := [],
    led_underrun_ct := 0, exited := false }

/-- One invocation of the pyaudio callback pa_callback_iqin with skip value
cbskip, PortAudio status flag statusInputOverflow and buffer payload
in_data. -/
def pa_callback_iqin {α : Type} (cbskip : Int) (statusInputOverflow : Bool)
    (in_data : α) (s : CBState α) : CBState α :=
  if s.exited then s
  else
    let s1 := { s with cbcount := s.cbcount + 1 }
    let s2 := if statusInputOverflow then { s1 with led_underrun_ct := 1 } else s1
    let p := skipDecide cbskip s2.cbskip_ct
    let s3 := { s2 with cbskip_ct := p.2 }
    if p.1 = false then s3
    else if 0 < s3.cbfirst then { s3 with cbfirst := s3.cbfirst - 1 }
    else if s3.queue.length < MAXQUEUELEN then { s3 with queue := s3.queue ++ [in_data] }
    else { s3 with exited := true }

/-- An operation on the shared queue: a producer callback invocation, or a
consumer dequeue (cbqueue.get removes the oldest element). -/
inductive QOp (α : Type) where
  | push (statusInputOverflow : Bool) (b : α)
  | pop
  deriving Repr, DecidableEq

def qstep {α : Type} (cbskip : Int) (s : CBState α) : QOp α → CBState α
  | QOp.push ov b => pa_callback_iqin cbskip ov b s
  | QOp.pop => { s with queue := s.queue.tail }

def qrun {α : Type} (cbskip : Int) (s : CBState α) : List (QOp α) → CBState α
  | [] => s
  | op :: ops => qrun cbskip (qstep cbskip s op) ops

/-- The callback either leaves the queue untouched, or appends the incoming
buffer at the back, and then only when the queue had spare capacity. -/
theorem pa_callback_queue_cases {α : Type} (cbskip : Int) (ov : Bool) (b : α)
    (s : CBState α) :
    (pa_callback_iqin cbskip ov b s).queue = s.queue ∨
    ((pa_callback_iqin cbskip ov b s).queue = s.queue ++ [b] ∧
      s.queue.length < MAXQUEUELEN) := by
  cases ov <;> simp only [pa_callback_iqin] <;> split_ifs <;> simp_all

theorem pa_callback_queue_bound {α : Type} (cbskip : Int) (ov : Bool) (b : α)
    (s : CBState α) (h : s.queue.length ≤ MAXQUEUELEN) :
    (pa_callback_iqin cbskip ov b s).queue.length ≤ MAXQUEUELEN := by
  rcases pa_callback_queue_cases cbskip ov b s with hc | ⟨hc, hlt⟩
  · rw [hc]; exact h
  · rw [hc]; simp; omega

theorem pa_callback_full_queue {α : Type} (cbskip : Int) (ov : Bool) (b : α)
    (s : CBState α) (h : s.queue.length = MAXQUEUELEN) :
    (pa_callback_iqin cbskip ov b s).queue = s.queue := by
  rcases pa_callback_queue_cases cbskip ov b s with hc | ⟨hc, hlt⟩
  · exact hc
  · omega

theorem qrun_queue_bound {α : Type} (cbskip : Int) :
    ∀ (ops : List (QOp α)) (s : CBState α), s.queue.length ≤ MAXQUEUELEN →
      (qrun cbskip s ops).queue.length ≤ MAXQUEUELEN := by
  intro ops
  induction ops with
  | nil => intro s h; exact h
  | cons op ops ih =>
    intro s h
    show (qrun cbskip (qstep cbskip s op) ops).queue.length ≤ MAXQUEUELEN
    apply ih
    cases op with
    | push ov b => exact pa_callback_queue_bound cbskip ov b s h
    | pop =>
      have ht : (qstep cbskip s QOp.pop).queue = s.queue.tail := rfl
      rw [ht]
      have := List.length_tail s.queue
      omega

/-- C9: in any interleaving of producer callback invocations and consumer
dequeues starting from the module initial state, the queue never holds more
than MAXQUEUELEN = 32 pending blocks, and a push arriving at a full queue
leaves the queue contents unchanged. -/
theorem queue_capacity_invariant {α : Type} (cbskip : Int) (ops : List (QOp α)) :
    MAXQUEUELEN = 32 ∧
    (qrun cbskip (cbInit α) ops).queue.length ≤ MAXQUEUELEN ∧
    ∀ (s : CBState α) (ov : Bool) (b : α), s.queue.length = MAXQUEUELEN →
      (pa_callback_iqin cbskip ov b s).queue = s.queue := by
  refine ⟨rfl, qrun_queue_bound cbskip ops (cbInit α) (by simp [cbInit]), ?_⟩
  intro s ov b h
  exact pa_callback_full_queue cbskip ov b s h

/-- A producer state whose queue is at full capacity (32 pending blocks). -/
def fullQueueState : CBState Nat :=
  { cbcount := 0, cbskip_ct := 0, cbfirst := 0, queue := List.replicate 32 0,
    led_underrun_ct := 0, exited := false }

/-- Witness for C9 at concrete inputs: a three-operation interleaving from
the initial state respects the bound, and a push onto the full queue state
leaves the queue unchanged. -/
theorem queue_capacity_invariant_witness :
    (qrun 0 (cbInit Nat) [QOp.push false 1, QOp.push false 2, QOp.pop]).queue.length
      ≤ MAXQUEUELEN ∧
    (pa_callback_iqin 0 false 7 fullQueueState).queue = fullQueueState.queue :=
  ⟨(queue_capacity_invariant 0 [QOp.push false 1, QOp.push false 2, QOp.pop]).2.1,
   (queue_capacity_invariant 0 ([] : List (QOp Nat))).2.2 fullQueueState false 7
     (by decide)⟩

/-- C2 (amended): when the skip policy accepts a block, no startup discards
remain, and the queue is already full, the callback does not block (the
enqueue is put_nowait) and the block is dropped with the queue left
unchanged; but instead of setting an overflow flag for the UI and carrying
on, the program prints an error and exits (sys.exit): the exited flag is
set, the LED flag is untouched, and every subsequent callback invocation
leaves the state unchanged.  The led_underrun_ct flag is set only on a
paInputOverflow status from PortAudio, not on queue overflow. -/
theorem full_queue_push_exits {α : Type} (cbskip : Int) (b : α) (s : CBState α)
    (hex : s.exited = false)
    (hkeep : (skipDecide cbskip s.cbskip_ct).1 = true)
    (hf : s.cbfirst = 0)
    (hq : s.queue.length = MAXQUEUELEN) :
    (pa_callback_iqin cbskip false b s).exited = true ∧
    (pa_callback_iqin cbskip false b s).queue = s.queue ∧
    (pa_callback_iqin cbskip false b s).led_underrun_ct = s.led_underrun_ct ∧
    ∀ (ov2 : Bool) (b2 : α),
      pa_callback_iqin cbskip ov2 b2 (pa_callback_iqin cbskip false b s) =
        pa_callback_iqin cbskip false b s := by
  have hqlt : ¬ (s.queue.length < MAXQUEUELEN) := by omega
  have hstate : pa_callback_iqin cbskip false b s =
      { s with cbcount := s.cbcount + 1,
               cbskip_ct := (skipDecide cbskip s.cbskip_ct).2,
               exited := true } := by
    simp [pa_callback_iqin, hex, hkeep, hf, hqlt]
  refine ⟨by rw [hstate], by rw [hstate], by rw [hstate], ?_⟩
  intro ov2 b2
  rw [hstate]
  simp [pa_callback_iqin]

/-- Witness for C2 (amended): pushing onto the full queue state with
skip = 0 sets the exited flag, drops the block, leaves the LED flag at 0,
and freezes the state for the next invocation. -/
theorem full_queue_push_exits_witness :
    (pa_callback_iqin 0 false 7 fullQueueState).exited = true ∧
    (pa_callback_iqin 0 false 7 fullQueueState).queue = fullQueueState.queue ∧
    (pa_callback_iqin 0 false 7 fullQueueState).led_underrun_ct
      = fullQueueState.led_underrun_ct ∧
    pa_callback_iqin 0 true 9 (pa_callback_iqin 0 false 7 fullQueueState) =
      pa_callback_iqin 0 false 7 fullQueueState :=
  ⟨(full_queue_push_exits 0 7 fullQueueState rfl (by decide) rfl (by decide)).1,
   (full_queue_push_exits 0 7 fullQueueState rfl (by decide) rfl (by decide)).2.1,
   (full_queue_push_exits 0 7 fullQueueState rfl (by decide) rfl (by decide)).2.2.1,
   (full_queue_push_exits 0 7 fullQueueState rfl (by decide) rfl (by decide)).2.2.2 true 9⟩

/-- Counterexample to C2 as stated: with the queue full, the callback does
not signal an overflow flag and continue; it exits.  After the push the
exited flag is set, the LED flag consumed by the UI is still 0, and the
next block is not processed (the state is frozen). -/
theorem full_queue_c2_counterexample :
    (pa_callback_iqin 0 false 7 fullQueueState).exited = true ∧
    (pa_callback_iqin 0 false 7 fullQueueState).led_underrun_ct = 0 ∧
    pa_callback_iqin 0 false 8 (pa_callback_iqin 0 false 7 fullQueueState) =
      pa_callback_iqin 0 false 7 fullQueueState := by decide

/-- C6 (amended): while startup blocks remain (cbfirst > 0) the queue is
never touched, but the skip policy runs BEFORE the startup discard: the
skip counter advances exactly as the skip decision dictates, and cbfirst is
decremented only when the skip policy accepts the block (a block the skip
policy discards does not consume a startup discard). -/
theorem startup_discard_after_skip {α : Type} (cbskip : Int) (ov : Bool) (b : α)
    (s : CBState α) (hex : s.exited = false) (hf : 0 < s.cbfirst) :
    (pa_callback_iqin cbskip ov b s).queue = s.queue ∧
    (pa_callback_iqin cbskip ov b s).cbskip_ct = (skipDecide cbskip s.cbskip_ct).2 ∧
    (pa_callback_iqin cbskip ov b s).cbfirst =
      (if (skipDecide cbskip s.cbskip_ct).1 then s.cbfirst - 1 else s.cbfirst) := by
  cases hp : (skipDecide cbskip s.cbskip_ct).1 <;> cases ov <;>
    simp [pa_callback_iqin, hex, hp, hf]

/-- Witness for C6 (amended): with skip = 1 from the initial state (one
startup discard pending), the first callback leaves the queue empty,
advances the skip counter to 1, and consumes the startup discard. -/
theorem startup_discard_after_skip_witness :
    (pa_callback_iqin 1 false 5 (cbInit Nat)).queue = [] ∧
    (pa_callback_iqin 1 false 5 (cbInit Nat)).cbskip_ct = 1 ∧
    (pa_callback_iqin 1 false 5 (cbInit Nat)).cbfirst = 0 :=
  ⟨(startup_discard_after_skip 1 false 5 (cbInit Nat) rfl (by decide)).1,
   (startup_discard_after_skip 1 false 5 (cbInit Nat) rfl (by decide)).2.1,
   (startup_discard_after_skip 1 false 5 (cbInit Nat) rfl (by decide)).2.2⟩

/-- Counterexample to C6 as stated: with skip = 1 and one startup discard,
the startup block DOES advance the skip counter (to 1), and after three
blocks the queue holds block 3, not block 2 as it would if the startup
discard happened before skip counting. -/
theorem startup_discard_c6_counterexample :
    (pa_callback_iqin 1 false 1 (cbInit Nat)).cbskip_ct = 1 ∧
    (qrun 1 (cbInit Nat)
        [QOp.push false 1, QOp.push false 2, QOp.push false 3]).queue = [3] ∧
    ([3] : List Nat) ≠ [2] := by decide

/-! ### Consumer wait loop: DataInput.get_queued_data (iq_af.py, lines 189-200)

The source sets timeout = 40 and loops while cbqueue.qsize() < 4,
decrementing timeout each pass, calling sys.exit when it reaches 0, and
sleeping 0.1 s between passes (so the 40 passes span about 4 seconds).
The queue size may change between passes because the producer thread runs
concurrently, so the loop is modelled over an arbitrary sequence of queue
size observations, one per pass.  -/

inductive WaitResult where
  | ready (pass : Nat)
  | fatalTimeout
  deriving Repr, DecidableEq

/-- The while loop of get_queued_data: qsize gives the queue size seen at
each pass, timeout is the remaining countdown, pass is the index of the
current observation. -/
def waitLoop (qsize : Nat → Nat) : Nat → Nat → WaitResult
  | timeout, pass =>
    if qsize pass < 4 then
      if h : timeout - 1 = 0 then WaitResult.fatalTimeout
      else waitLoop qsize (timeout - 1) (pass + 1)
    else WaitResult.ready pass
termination_by timeout _ => timeout
decreasing_by omega

/-- get_queued_data enters the wait loop with timeout = 40 at the first
observation; on WaitResult.ready it goes on to dequeue a block. -/
def get_queued_data (qsize : Nat → Nat) : WaitResult :=
  waitLoop qsize 40 0

theorem waitLoop_eq (qsize : Nat → Nat) (timeout pass : Nat) :
    waitLoop qsize timeout pass =
      if qsize pass < 4 then
        if timeout - 1 = 0 then WaitResult.fatalTimeout
        else waitLoop qsize (timeout - 1) (pass + 1)
      else WaitResult.ready pass := by
  rw [waitLoop]
  simp

/-- If the queue stays below 4 for t consecutive observations, a loop entered
with countdown t ≥ 1 reports the fatal timeout. -/
theorem waitLoop_fatal (qsize : Nat → Nat) :
    ∀ (t : Nat), 0 < t → ∀ (pass : Nat), (∀ j, j < t → qsize (pass + j) < 4) →
      waitLoop qsize t pass = WaitResult.fatalTimeout := by
  intro t
  induction t using Nat.strong_induction_on with
  | _ t ih =>
    intro ht pass hq
    rw [waitLoop_eq]
    have h0 : qsize pass < 4 := by have := hq 0 (by omega); simpa using this
    rw [if_pos h0]
    by_cases h1 : t - 1 = 0
    · rw [if_pos h1]
    · rw [if_neg h1]
      refine ih (t - 1) (by omega) (by omega) (pass + 1) ?_
      intro j hj
      have := hq (j + 1) (by omega)
      have harr : pass + 1 + j = pass + (j + 1) := by omega
      rw [harr]
      exact this

/-- A loop entered with countdown t ≥ 1 makes at most t observations: it
either reports the fatal timeout or returns ready at some pass within the
next t observations, and then the observed queue size was at least 4. -/
theorem waitLoop_bounded (qsize : Nat → Nat) :
    ∀ (t : Nat), 0 < t → ∀ (pass : Nat),
      waitLoop qsize t pass = WaitResult.fatalTimeout ∨
      ∃ k, k < t ∧ waitLoop qsize t pass = WaitResult.ready (pass + k) ∧
        4 ≤ qsize (pass + k) := by
  intro t
  induction t using Nat.strong_induction_on with
  | _ t ih =>
    intro ht pass
    rw [waitLoop_eq]
    by_cases h0 : qsize pass < 4
    · rw [if_pos h0]
      by_cases h1 : t - 1 = 0
      · rw [if_pos h1]; left; rfl
      · rw [if_neg h1]
        rcases ih (t - 1) (by omega) (by omega) (pass + 1) with hf | ⟨k, hk, hr, hs⟩
        · left; exact hf
        · right
          refine ⟨k + 1, by omega, ?_, ?_⟩
          · rw [hr]; congr 1; omega
          · have harr : pass + (k + 1) = pass + 1 + k := by omega
            rw [harr]; exact hs
    · rw [if_neg h0]
      right
      exact ⟨0, by omega, by simp, by simp only [Nat.add_zero]; omega⟩

/-- C3: get_queued_data busy-waits, one bounded sleep per pass, until at
least 4 blocks are queued; it makes at most 40 passes (40 sleeps of 0.1 s,
about 4 seconds) and, if the queue never reaches 4 blocks within them,
surfaces the fatal stalled-stream exit instead of hanging or silently
retrying forever. -/
theorem get_queued_data_stall (qsize : Nat → Nat) :
    ((∀ j, j < 40 → qsize j < 4) → get_queued_data qsize = WaitResult.fatalTimeout) ∧
    (get_queued_data qsize = WaitResult.fatalTimeout ∨
      ∃ k, k < 40 ∧ get_queued_data qsize = WaitResult.ready k ∧ 4 ≤ qsize k) := by
  constructor
  · intro hq
    refine waitLoop_fatal qsize 40 (by omega) 0 ?_
    intro j hj
    have := hq j hj
    simpa using this
  · rcases waitLoop_bounded qsize 40 (by omega) 0 with hf | ⟨k, hk, hr, hs⟩
    · left; exact hf
    · right
      exact ⟨k, hk, by simpa using hr, by simpa using hs⟩

/-- Witness for C3: with the producer stopped and the queue empty at every
observation, get_queued_data reports the fatal timeout. -/
theorem get_queued_data_stall_witness :
    get_queued_data (fun _ => 0) = WaitResult.fatalTimeout :=
  (get_queued_data_stall (fun _ => 0)).1 (by intro j _; decide)

/-! ### Graticule.set_range (iq.py, lines 1108-1118)

The source checks `if not sp_max > sp_min`, prints an error and calls
quit_all(), which closes the display and calls sys.exit: the whole process
terminates and the assignments to self.sp_max / self.sp_min are never
reached.  Otherwise both fields are updated and the call returns. -/

structure GratState where
  sp_min : Int
  sp_max : Int
  deriving Repr, DecidableEq

/-- Outcome of a set_range call: either control returns to the caller with
the resulting state, or quit_all terminates the process while the state
still holds the given values. -/
inductive SetRangeOutcome where
  | returned (g : GratState)
  | programExit (g : GratState)
  deriving Repr, DecidableEq

def set_range (g : GratState) (sp_mn sp_mx : Int) : SetRangeOutcome :=
  if ¬ (sp_mx > sp_mn) then SetRangeOutcome.programExit g
  else SetRangeOutcome.returned { sp_min := sp_mn, sp_max := sp_mx }

/-- Whether a set_range call hands control back to the caller. -/
def SetRangeOutcome.returnsToCaller : SetRangeOutcome → Bool
  | SetRangeOutcome.returned _ => true
  | SetRangeOutcome.programExit _ => false

/-- C4 (amended): a set_range request with max ≤ min leaves the stored range
unmodified, but instead of failing the call and returning, it terminates
the whole program via quit_all / sys.exit, so the caller never gets the
chance to re-read the range or choose a valid one; a request with
max > min returns with the range updated. -/
theorem set_range_reject (g : GratState) (mn mx : Int) :
    (mx ≤ mn → set_range g mn mx = SetRangeOutcome.programExit g) ∧
    (mn < mx → set_range g mn mx = SetRangeOutcome.returned ⟨mn, mx⟩) := by
  constructor
  · intro h
    unfold set_range
    rw [if_pos (by omega)]
  · intro h
    unfold set_range
    rw [if_neg (by omega)]

/-- Witness for C4 (amended): from range (-120, -20), requesting the
invalid range (-50, -50) exits the program with the state untouched, and
requesting the valid range (-110, -30) returns with the state updated. -/
theorem set_range_reject_witness :
    set_range ⟨-120, -20⟩ (-50) (-50) = SetRangeOutcome.programExit ⟨-120, -20⟩ ∧
    set_range ⟨-120, -20⟩ (-110) (-30) = SetRangeOutcome.returned ⟨-110, -30⟩ :=
  ⟨(set_range_reject ⟨-120, -20⟩ (-50) (-50)).1 (by decide),
   (set_range_reject ⟨-120, -20⟩ (-110) (-30)).2 (by decide)⟩

/-- Counterexample to C4 as stated: the rejected call does not return to
the caller at all (quit_all terminates the process), so there is no
"reading the range after the rejected call" and no subsequent retry. -/
theorem set_range_c4_counterexample :
    (set_range ⟨-120, -20⟩ (-50) (-50)).returnsToCaller = false ∧
    set_range ⟨-120, -20⟩ (-50) (-50) = SetRangeOutcome.programExit ⟨-120, -20⟩ := by
  decide

/-! ### Module-level FFT size clamp (iq.py, lines 1223-1228)

In the source, w_spectra = w_main = 1280 (lines 1208-1212).  If opt.size
exceeds w_spectra, the loop over [1024, 512, 256, 128] picks the first
(hence largest) entry that fits and resets opt.size to it, reporting the
adjustment; the loop is translated by unrolling. -/

def clampSize (size w : Nat) : Nat :=
  if w < size then
    if 1024 ≤ w then 1024
    else if 512 ≤ w then 512
    else if 256 ≤ w then 256
    else if 128 ≤ w then 128
    else size
  else size

/-- The display width used by iq.py (w_spectra = w_main = 1280). -/
def w_spectra : Nat := 1280

/-- C7: whenever the configured FFT size exceeds the display width w (with
w at least 128, as holds for the fixed width 1280 of iq.py), the clamp
resets it to the largest supported power of two that fits, and afterwards
the size in use never exceeds the display width. -/
theorem clampSize_spec (size w : Nat) (hw : 128 ≤ w) :
    clampSize size w ≤ w ∧
    (w < size → clampSize size w ∈ [1024, 512, 256, 128] ∧
      ∀ c ∈ [1024, 512, 256, 128], c ≤ w → c ≤ clampSize size w) := by
  unfold clampSize
  split_ifs <;> simp_all

/-- Witness for C7: a configured size of 2048 against the width 1280 used
by iq.py is clamped to 1024, the largest supported power of two below the
width. -/
theorem clampSize_spec_witness :
    clampSize 2048 w_spectra ≤ w_spectra ∧ 1024 ≤ clampSize 2048 w_spectra :=
  ⟨(clampSize_spec 2048 w_spectra (by decide)).1,
   ((clampSize_spec 2048 w_spectra (by decide)).2 (by decide)).2 1024
     (by decide) (by decide)⟩

/-! ### Graticule.make (iq.py, lines 1068-1106)

The dB axis loops `for attn in range(self.sp_min, self.sp_max, 10)`,
drawing a line every 10 dB from sp_min up to (excluding) sp_max.  The
frequency axis computes srate2 = (sample_rate/1000.)/2 kHz and picks
xtick_max by breaking at the first entry of [800, 400, 200, 100, 80, 40,
20, 10] that is < srate2; if no entry satisfies the test the loop ends
with xtick_max = 10, the last entry.  The float arithmetic is exact for
the comparisons involved (integer sample rates can never fall within one
part in 10^12 of a candidate without being exactly equal), so rationals
model it faithfully. -/

def xtickCandidates : List Nat := [800, 400, 200, 100, 80, 40, 20, 10]

def srate2 (sample_rate : Nat) : ℚ := ((sample_rate : ℚ) / 1000) / 2

def chooseXtickMax (sample_rate : Nat) : Nat :=
  if (800 : ℚ) < srate2 sample_rate then 800
  else if (400 : ℚ) < srate2 sample_rate then 400
  else if (200 : ℚ) < srate2 sample_rate then 200
  else if (100 : ℚ) < srate2 sample_rate then 100
  else if (80 : ℚ) < srate2 sample_rate then 80
  else if (40 : ℚ) < srate2 sample_rate then 40
  else if (20 : ℚ) < srate2 sample_rate then 20
  else 10

/-- The dB tick values drawn by Graticule.make: range(sp_min, sp_max, 10). -/
def dbTicks (sp_mn sp_mx : Int) : List Int :=
  (List.range (((sp_mx - sp_mn).toNat + 9) / 10)).map
    (fun (k : Nat) => sp_mn + 10 * (k : Int))

theorem srate2_lt_iff (sr c : Nat) : ((c : ℚ) < srate2 sr) ↔ c * 2000 < sr := by
  unfold srate2
  rw [div_div, lt_div_iff₀ (by norm_num : (0 : ℚ) < 1000 * 2)]
  norm_num
  exact_mod_cast Iff.rfl

/-- The candidate selection of Graticule.make, restated over the integer
sample rate. -/
theorem chooseXtickMax_eq (sr : Nat) :
    chooseXtickMax sr =
      if 1600000 < sr then 800
      else if 800000 < sr then 400
      else if 400000 < sr then 200
      else if 200000 < sr then 100
      else if 160000 < sr then 80
      else if 80000 < sr then 40
      else if 40000 < sr then 20
      else 10 := by
  have h800 := srate2_lt_iff sr 800
  have h400 := srate2_lt_iff sr 400
  have h200 := srate2_lt_iff sr 200
  have h100 := srate2_lt_iff sr 100
  have h80 := srate2_lt_iff sr 80
  have h40 := srate2_lt_iff sr 40
  have h20 := srate2_lt_iff sr 20
  norm_num at h800 h400 h200 h100 h80 h40 h20
  unfold chooseXtickMax
  simp only [h800, h400, h200, h100, h80, h40, h20]

/-- Membership in the dB tick list: exactly the values sp_min + 10k that
stay below sp_max. -/
theorem dbTicks_mem (sp_mn sp_mx t : Int) :
    t ∈ dbTicks sp_mn sp_mx ↔
      ∃ k : Nat, t = sp_mn + 10 * (k : Int) ∧ t < sp_mx := by
  unfold dbTicks
  constructor
  · intro h
    obtain ⟨k, hk, hfk⟩ := List.mem_map.1 h
    rw [List.mem_range] at hk
    exact ⟨k, hfk.symm, by omega⟩
  · rintro ⟨k, rfl, hk⟩
    exact List.mem_map.2 ⟨k, List.mem_range.2 (by omega), rfl⟩

/-- C8 (amended): Graticule.make draws the dB grid at fixed 10-dB intervals
from the configured minimum up to the maximum, and, PROVIDED the sample
rate exceeds 20 kHz, chooses as frequency half-span the largest candidate
of {800,400,200,100,80,40,20,10} kHz that is smaller than the Nyquist
half-bandwidth sample_rate/2 expressed in kHz; at sample rates of 20 kHz
or below no candidate is smaller and the code falls back to 10 (see the
low-rate theorem). -/
theorem graticule_make_grid (sp_mn sp_mx : Int) (sr : Nat) (hsr : 20000 < sr) :
    (∀ t : Int, t ∈ dbTicks sp_mn sp_mx ↔
      ∃ k : Nat, t = sp_mn + 10 * (k : Int) ∧ t < sp_mx) ∧
    chooseXtickMax sr ∈ xtickCandidates ∧
    ((chooseXtickMax sr : ℚ) < srate2 sr) ∧
    ∀ c ∈ xtickCandidates, (c : ℚ) < srate2 sr → c ≤ chooseXtickMax sr := by
  refine ⟨fun t => dbTicks_mem sp_mn sp_mx t, ?_, ?_, ?_⟩
  · rw [chooseXtickMax_eq]
    split_ifs <;> simp [xtickCandidates]
  · rw [srate2_lt_iff sr (chooseXtickMax sr), chooseXtickMax_eq]
    split_ifs <;> omega
  · intro c hc hlt
    rw [srate2_lt_iff sr c] at hlt
    rw [chooseXtickMax_eq]
    simp only [xtickCandidates, List.mem_cons, List.not_mem_nil, or_false] at hc
    rcases hc with rfl | rfl | rfl | rfl | rfl | rfl | rfl | rfl <;>
      split_ifs <;> omega

/-- Witness for C8 (amended): at 48 kHz the half-bandwidth is 24 kHz; -30
is one of the 10-dB ticks of the range (-120, -20), the chosen half-span
is a candidate, and it is smaller than 24 kHz. -/
theorem graticule_make_grid_witness :
    ((-30 : Int) ∈ dbTicks (-120) (-20)) ∧
    chooseXtickMax 48000 ∈ xtickCandidates ∧
    ((chooseXtickMax 48000 : ℚ) < srate2 48000) :=
  ⟨((graticule_make_grid (-120) (-20) 48000 (by decide)).1 (-30)).mpr
      ⟨9, by decide, by decide⟩,
   (graticule_make_grid (-120) (-20) 48000 (by decide)).2.1,
   (graticule_make_grid (-120) (-20) 48000 (by decide)).2.2.1⟩

/-- Counterexample to C8 as stated: at sample rate 8000 (half-bandwidth
4 kHz) the code picks 10 kHz, which is NOT smaller than the half-bandwidth,
and no candidate smaller than it exists; so for every valid sample rate
the chosen half-span is not always the largest candidate smaller than the
Nyquist half-bandwidth. -/
theorem graticule_c8_counterexample :
    chooseXtickMax 8000 = 10 ∧ ¬ ((10 : ℚ) < srate2 8000) := by
  constructor
  · norm_num [chooseXtickMax, srate2]
  · norm_num [srate2]

/-- C10: for every sample rate of 20 kHz or less, Graticule.make still
completes and the candidate loop falls through to the final candidate
10 kHz even though 10 is not smaller than the Nyquist half-bandwidth. -/
theorem graticule_lowrate_fallthrough (sr : Nat) (hsr : sr ≤ 20000) :
    chooseXtickMax sr = 10 ∧ ¬ ((10 : ℚ) < srate2 sr) := by
  constructor
  · rw [chooseXtickMax_eq]
    split_ifs <;> omega
  · rw [show ((10 : ℚ)) = ((10 : Nat) : ℚ) by norm_num, srate2_lt_iff]
    omega

/-- Witness for C10: at 16 kHz (half-bandwidth 8 kHz) the chosen half-span
is the fall-through value 10, not smaller than 8. -/
theorem graticule_lowrate_fallthrough_witness :
    chooseXtickMax 16000 = 10 ∧ ¬ ((10 : ℚ) < srate2 16000) :=
  graticule_lowrate_fallthrough 16000 (by decide)
